import Mathlib

/-!
Verification development for the `ammolite` adapter layer
(`src/ammolite/object.py`): a wrapper around a PyMOL object that
converts boolean atom masks into PyMOL selection expressions, converts
engine objects back into columnar structures, and guards every wrapped
command with an existence / atom-count validation step.

The Python source is embedded shallowly: methods become Lean functions,
raised exceptions become `Except` errors, and the external engine
session becomes an explicit state value.  Floating point payloads
(coordinates, RGB components, clip distances) are modeled opaquely,
since no verified property depends on their arithmetic.
-/

namespace Ammolite

/-- Python exceptions raised by `object.py`, by constructor.
`NameError` carries the unresolved identifier: the source contains two
references to names that are not defined in scope (`atom_count` in
`where`'s length-mismatch message, and the unimported
`filter_first_altloc` in `to_structure`), which raise `NameError` at
run time. -/
inductive PyError where
  | NonexistentObjectError (msg : String)
  | ModifiedObjectError (msg : String)
  | IndexError (msg : String)
  | ValueError (msg : String)
  | NameError (missing : String)
  | TypeError (msg : String)
deriving Repr, DecidableEq

/-- Message of `NonexistentObjectError` as built in `_check_existence`
(object.py lines 226-231). -/
def nonexistentMsg (name : String) : String :=
  "A PyMOL object with the name " ++ name ++ " does not exist anymore"

/-- Message of `ModifiedObjectError` as built in the `validate`
decorator (object.py lines 17-22); the double space before "to" is in
the source (two concatenated f-string fragments). -/
def modifiedMsg (old new : Nat) : String :=
  "The number of atoms in the object changed from the original "
    ++ toString old ++ " atoms " ++ " to " ++ toString new ++ " atoms"

/-- Indices where the mask changes value, shifted by one so that each
index refers to the position after the change: the embedding of
`np.where(np.diff(mask))[0] + 1` (object.py line 260).  `np.diff` on a
boolean array marks positions where consecutive entries differ. -/
def diffChanges (mask : List Bool) : List Nat :=
  ((List.range (mask.length - 1)).filter
      (fun i => mask.getD i false != mask.getD (i + 1) false)).map (fun i => i + 1)

/-- The full boundary list of `where` (object.py lines 260-269):
`diffChanges`, with `0` prepended when `mask[0]` is True and
`len(mask)` appended when `mask[-1]` is True.  Python's `mask[0]` and
`mask[-1]` are `getD 0` and `getD (length - 1)`; `changesOf` is only
ever consumed for a nonempty mask (see `whereExpr`). -/
def changesOf (mask : List Bool) : List Nat :=
  let c := diffChanges mask
  let c := if mask.getD 0 false then 0 :: c else c
  if mask.getD (mask.length - 1) false then c ++ [mask.length] else c

/-- Embedding of `np.reshape(changes, (-1, 2))` (object.py line 273):
consecutive elements are grouped into pairs.  The reshape is valid
because the boundary list always has even length (proved below). -/
def toPairs : List Nat → List (Nat × Nat)
  | a :: b :: rest => (a, b) :: toPairs rest
  | _ => []

/-- The intervals (half-open, 0-based) where the mask is True. -/
def intervalsOf (mask : List Bool) : List (Nat × Nat) :=
  toPairs (changesOf mask)

/-- One range clause `f"index {start+1}-{stop}"` (object.py line 280):
PyMOL indexing is 1-based and the stored stop index is exclusive, so
the rendered range is inclusive `start+1 ... stop`. -/
def rangeClause (iv : Nat × Nat) : String :=
  "index " ++ toString (iv.1 + 1) ++ "-" ++ toString iv.2

/-- The complete selection string (object.py lines 279-283): the range
clauses joined with " or ", parenthesized, and conjoined with the
object-scoping clause. -/
def completeSelection (name : String) (intervals : List (Nat × Nat)) : String :=
  let index_selection := String.intercalate " or " (intervals.map rangeClause)
  "model " ++ name ++ " and (" ++ index_selection ++ ")"

/-- Embedding of the body of `PyMOLObject.where` (object.py lines
234-284), parameterized by the recorded atom count `self._atom_count`.
The length-mismatch branch (lines 250-254) raises `NameError`: the
`IndexError` message f-string references the undefined name
`atom_count` (the field is `self._atom_count`), so evaluating the
message fails before the `IndexError` is constructed.  When the length
check passes on an empty mask, `mask[0]` (line 263) is an
out-of-bounds numpy access and raises `IndexError`. -/
def whereExpr (name : String) (atomCount : Nat) (mask : List Bool) :
    Except PyError String :=
  if mask.length ≠ atomCount then
    .error (.NameError "atom_count")
  else if mask.isEmpty then
    .error (.IndexError "index 0 is out of bounds for axis 0 with size 0")
  else
    .ok (completeSelection name (intervalsOf mask))

/-- The PyMOL session state visible to `object.py`: the named objects
with their live atom counts (consumed through `get_object_list` and
`count_atoms`) and the registered color names (consumed through
`get_color_indices`). -/
structure Session where
  objects : List (String × Nat)
  colorIndices : List String

/-- Embedding of `cmd.get_object_list()`. -/
def get_object_list (s : Session) : List String :=
  s.objects.map Prod.fst

/-- Embedding of `cmd.count_atoms(f"model {name}")`: the live atom
count of the named object, `0` when the object is absent. -/
def count_atoms (s : Session) (name : String) : Nat :=
  ((s.objects.find? (fun p => p.1 == name)).map Prod.snd).getD 0

/-- The handle state set up by `PyMOLObject.__init__` (object.py lines
69-78): the object name, the atom count recorded at construction time,
and the deletion-ownership flag. -/
structure PyMOLObject where
  name : String
  atom_count : Nat
  delete : Bool
deriving Repr, DecidableEq

/-- Embedding of `PyMOLObject._check_existence` (object.py lines
226-231). -/
def check_existence (sess : Session) (name : String) : Except PyError Unit :=
  if name ∈ get_object_list sess then .ok ()
  else .error (.NonexistentObjectError (nonexistentMsg name))

/-- Embedding of `PyMOLObject.__init__` (object.py lines 69-78): after
the existence check succeeds, the live atom count is recorded as the
handle's baseline. -/
def PyMOLObject.init (sess : Session) (name : String) (delete : Bool) :
    Except PyError PyMOLObject :=
  match check_existence sess name with
  | .error e => .error e
  | .ok _ => .ok ⟨name, count_atoms sess name, delete⟩

/-- Embedding of the `validate` decorator (object.py lines 12-24): the
existence check runs first, then the live atom count is compared with
the count recorded at construction. -/
def validate (sess : Session) (self : PyMOLObject) : Except PyError Unit := do
  check_existence sess self.name
  let new_atom_count := count_atoms sess self.name
  if new_atom_count ≠ self.atom_count then
    .error (.ModifiedObjectError (modifiedMsg self.atom_count new_atom_count))
  else
    .ok ()

/-- Embedding of the decorated `PyMOLObject.where` method
(`@validate`, object.py line 234): validation, then the mask
encoder. -/
def PyMOLObject.where_ (sess : Session) (self : PyMOLObject)
    (mask : List Bool) : Except PyError String := do
  validate sess self
  whereExpr self.name self.atom_count mask

/-- The `selection` argument of the command wrappers: Python's `None`,
a raw selection-expression string, or anything else (treated as a
boolean mask by `np.asarray`). -/
inductive Selection where
  | none
  | expr (s : String)
  | mask (m : List Bool)

/-- Embedding of `PyMOLObject._into_selection` (object.py lines
286-296).  The mask branch goes through the decorated `where` method
(`self.where(np.asarray(selection))`). -/
def PyMOLObject.into_selection (self : PyMOLObject) (sess : Session) :
    Selection → Except PyError String
  | .none => .ok ("model " ++ self.name)
  | .expr s => .ok ("model " ++ self.name ++ " and (" ++ s ++ ")")
  | .mask m => self.where_ sess m

/-- Engine commands issued by the wrapped methods.  A method's result
is the list of commands it sends to the engine; an `Except.error`
result means no command was issued.  Float parameters of the source
(clip distance, RGB components) are modeled opaquely as `Int`. -/
inductive EngineCmd where
  | alter (sel expression : String)
  | cartoon (type sel : String)
  | center (sel : String) (state : Int) (origin : Int)
  | clip (mode : String) (distance : Int) (sel : String) (state : Int)
  | set_color (name : String) (rgb : Int × Int × Int)
  | color (colorName sel : String)
deriving Repr, DecidableEq

/-- Embedding of `PyMOLObject.alter` (object.py lines 301-320). -/
def PyMOLObject.alter (sess : Session) (self : PyMOLObject)
    (selection : Selection) (expression : String) :
    Except PyError (List EngineCmd) := do
  validate sess self
  let sel ← self.into_selection sess selection
  .ok [.alter sel expression]

/-- Embedding of `PyMOLObject.cartoon` (object.py lines 322-350). -/
def PyMOLObject.cartoon (sess : Session) (self : PyMOLObject)
    (type : String) (selection : Selection) :
    Except PyError (List EngineCmd) := do
  validate sess self
  let sel ← self.into_selection sess selection
  .ok [.cartoon type sel]

/-- Embedding of `PyMOLObject.center` (object.py lines 352-377):
`state = 0 if state is None else state`, `int(origin)`. -/
def PyMOLObject.center (sess : Session) (self : PyMOLObject)
    (selection : Selection) (state : Option Int) (origin : Bool) :
    Except PyError (List EngineCmd) := do
  validate sess self
  let st := match state with | Option.none => 0 | Option.some s => s
  let sel ← self.into_selection sess selection
  .ok [.center sel st (if origin then 1 else 0)]

/-- Embedding of `PyMOLObject.clip` (object.py lines 379-409). -/
def PyMOLObject.clip (sess : Session) (self : PyMOLObject)
    (mode : String) (distance : Int) (selection : Selection)
    (state : Option Int) : Except PyError (List EngineCmd) := do
  validate sess self
  let st := match state with | Option.none => 0 | Option.some s => s
  let sel ← self.into_selection sess selection
  .ok [.clip mode distance sel st]

/-- The `color` argument of `PyMOLObject.color`: a PyMOL color name or
an RGB tuple (float components modeled opaquely). -/
inductive ColorArg where
  | str (s : String)
  | rgb (r g b : Int)

/-- Embedding of `PyMOLObject.color` (object.py lines 411-447),
threading the process-wide `_color_counter` explicitly.  An RGB tuple
is registered under a fresh synthetic name via `set_color`; an unknown
color name raises `ValueError` (source message: "Unknown color
'<name>'"). -/
def PyMOLObject.color (sess : Session) (self : PyMOLObject)
    (counter : Nat) (color : ColorArg) (selection : Selection) :
    Except PyError (List EngineCmd × Nat) := do
  validate sess self
  match color with
  | .rgb r g b =>
      let color_name := "ammolite_color_" ++ toString counter
      let sel ← self.into_selection sess selection
      .ok ([.set_color color_name (r, g, b), .color color_name sel], counter + 1)
  | .str s =>
      if s ∈ sess.colorIndices then do
        let sel ← self.into_selection sess selection
        .ok ([.color s sel], counter)
      else
        .error (.ValueError ("Unknown color " ++ s))

/-- The engine-side data of one PyMOL object as consumed by
`to_structure`: the per-state record models (`cmd.get_model`, states
are 1-based) and the per-state coordinate sets (`cmd.get_coordset`;
`cmd.count_states` is the number of coordinate sets).  The record
model type `M` and the coordinate type `C` are opaque. -/
structure ObjectData (M C : Type) where
  models : List M
  coordsets : List (List C)

/-- Embedding of `cmd.get_model(name, state)` for 1-based `state`. -/
def get_model {M C : Type} [Inhabited M] (o : ObjectData M C) (state : Nat) : M :=
  o.models.getD (state - 1) default

/-- The structure value assembled by `to_structure` before altloc
filtering.  `convert_to_atom_array` lives in `convert.py`, which is
not under src/; modelled from the spec: the conversion packages the
per-atom record model (the topology) and the bond flag opaquely.
`stack` is the `struc.from_template(template, np.stack(coord))` result
(an `AtomArrayStack`); `array` is the single-state `AtomArray`. -/
inductive StructResult (M C : Type) where
  | stack (template : M) (include_bonds : Bool) (coord : List (List C))
  | array (model : M) (include_bonds : Bool)
deriving Repr, DecidableEq

/-- The result of the altloc-filtering tail of `to_structure`.
`occupancyFiltered` marks that the external
`struc.filter_highest_occupancy_altloc` helper was applied and the
`altloc_id` annotation deleted (its semantics belong to the external
structure collaborator and are kept opaque). -/
inductive AltlocResult (M C : Type) where
  | raw (s : StructResult M C)
  | occupancyFiltered (s : StructResult M C)
deriving Repr, DecidableEq

/-- The altloc dispatch at the end of `to_structure` (object.py lines
194-214).  The `"first"` branch raises `NameError`: it calls
`filter_first_altloc(structure, structure.altloc_id)` but the name
`filter_first_altloc` is neither defined in the module nor imported
(the neighboring branch qualifies its helper as
`struc.filter_highest_occupancy_altloc`), so the call raises
`NameError` before any filtering happens. -/
def applyAltloc {M C : Type} (altloc : String) (st : StructResult M C) :
    Except PyError (AltlocResult M C) :=
  if altloc = "occupancy" then .ok (.occupancyFiltered st)
  else if altloc = "first" then .error (.NameError "filter_first_altloc")
  else if altloc = "all" then .ok (.raw st)
  else .error (.ValueError (altloc ++ " is not a valid altloc option"))

/-- The multi-state coordinate loop of `to_structure` (object.py lines
174-184): iterate the states in order, record the first state's atom
count as `expected_length`, and fail on any mismatch.  The Python loop
runs over `range(count_states)` fetching `get_coordset(state=i+1)`,
which traverses `coordsets` in order. -/
def gatherLoop {C : Type} :
    List (List C) → Option Nat → List (List C) → Except PyError (List (List C))
  | [], _, acc => .ok acc.reverse
  | sc :: rest, Option.none, acc => gatherLoop rest (Option.some sc.length) (sc :: acc)
  | sc :: rest, Option.some e, acc =>
      if sc.length ≠ e then
        .error (.ValueError "The models have different numbers of atoms")
      else gatherLoop rest (Option.some e) (sc :: acc)

/-- Embedding of `PyMOLObject.to_structure` (object.py lines 130-214).
With `state=None` the state-1 record model is the topology template,
the coordinate sets of all states are gathered and stacked
(`np.stack` on an empty list raises `ValueError`); with an explicit
`state` the single-state record model is converted directly.  The
altloc policy is applied to the assembled structure at the end. -/
def to_structure {M C : Type} [Inhabited M] (o : ObjectData M C)
    (state : Option Nat) (altloc : String) (include_bonds : Bool) :
    Except PyError (AltlocResult M C) :=
  match state with
  | Option.none => do
      let template := get_model o 1
      let coord ← gatherLoop o.coordsets Option.none []
      if coord.isEmpty then
        .error (.ValueError "need at least one array to stack")
      else
        applyAltloc altloc (.stack template include_bonds coord)
  | Option.some s =>
      applyAltloc altloc (.array (get_model o s) include_bonds)

/-- Whether a run boundary sits between atom `j-1` and atom `j`,
reading the mask as `false` before index 0 and after the end.  The
boundary list of `where` is exactly the ascending list of positions
`j ≤ length` satisfying `chg` (proved below). -/
def chg (mask : List Bool) : Nat → Bool
  | 0 => mask.getD 0 false
  | j + 1 => mask.getD j false != mask.getD (j + 1) false

/-! ### Characterization of the boundary list -/

theorem changes_eq_filter (mask : List Bool) (h : mask ≠ []) :
    changesOf mask = (List.range (mask.length + 1)).filter (chg mask) := by
  obtain ⟨a, t, rfl⟩ : ∃ a t, mask = a :: t := by
    cases mask with
    | nil => exact absurd rfl h
    | cons a t => exact ⟨a, t, rfl⟩
  have hchg0 : chg (a :: t) 0 = (a :: t).getD 0 false := rfl
  have hvTop : (a :: t).getD (t.length + 1) false = false :=
    List.getD_eq_default _ _ (by simp)
  have hchgN : chg (a :: t) (t.length + 1)
      = (a :: t).getD ((a :: t).length - 1) false := by
    show ((a :: t).getD t.length false != (a :: t).getD (t.length + 1) false)
        = (a :: t).getD t.length false
    rw [hvTop]
    rcases Bool.eq_false_or_eq_true ((a :: t).getD t.length false) with hx | hx <;>
      rw [hx] <;> rfl
  have hmid : List.filter (chg (a :: t)) ((List.range t.length).map (· + 1))
      = diffChanges (a :: t) := by
    rw [List.filter_map]
    unfold diffChanges
    congr 1
  have hfil : (List.range ((a :: t).length + 1)).filter (chg (a :: t))
      = (if (a :: t).getD 0 false then [0] else [])
        ++ diffChanges (a :: t)
        ++ (if (a :: t).getD ((a :: t).length - 1) false
              then [(a :: t).length] else []) := by
    show (List.range (t.length + 1 + 1)).filter (chg (a :: t)) = _
    rw [List.range_succ, List.filter_append, List.range_succ_eq_map,
      List.filter_cons, List.filter_cons, List.filter_nil, hmid, hchg0, hchgN]
    rcases Bool.eq_false_or_eq_true ((a :: t).getD 0 false) with hb0 | hb0 <;>
      rcases Bool.eq_false_or_eq_true
          ((a :: t).getD ((a :: t).length - 1) false) with hbL | hbL <;>
        rw [hb0, hbL] <;> simp
  rw [hfil]
  simp only [changesOf]
  rcases Bool.eq_false_or_eq_true ((a :: t).getD 0 false) with hb0 | hb0 <;>
    rcases Bool.eq_false_or_eq_true
        ((a :: t).getD ((a :: t).length - 1) false) with hbL | hbL <;>
      rw [hb0, hbL] <;> simp

theorem mask_parity (mask : List Bool) :
    ∀ k, mask.getD k false = true
      ↔ ((List.range (k + 1)).countP (chg mask)) % 2 = 1 := by
  intro k
  induction k with
  | zero =>
      have h1 : (List.range 1).countP (chg mask) = if chg mask 0 then 1 else 0 := by
        rw [show List.range 1 = [0] from rfl]
        simp [List.countP_cons]
      have hc0 : chg mask 0 = mask.getD 0 false := rfl
      rcases Bool.eq_false_or_eq_true (mask.getD 0 false) with h0 | h0 <;>
        rw [h1, hc0, h0] <;> decide
  | succ k ih =>
      have hsplit : (List.range (k + 1 + 1)).countP (chg mask)
          = (List.range (k + 1)).countP (chg mask)
            + if chg mask (k + 1) then 1 else 0 := by
        rw [List.range_succ, List.countP_append]
        simp [List.countP_cons]
      have hc : chg mask (k + 1)
          = (mask.getD k false != mask.getD (k + 1) false) := rfl
      rw [hsplit, hc]
      rcases Bool.eq_false_or_eq_true (mask.getD k false) with hk | hk <;>
        rcases Bool.eq_false_or_eq_true (mask.getD (k + 1) false) with hk1 | hk1 <;>
          rw [hk] at ih <;> rw [hk, hk1] <;> simp at ih ⊢ <;> omega

theorem countP_le_range (pred : Nat → Bool) (k : Nat) :
    ∀ m, k + 1 ≤ m →
      (List.range m).countP (fun j => decide (j ≤ k) && pred j)
        = (List.range (k + 1)).countP pred := by
  intro m
  induction m with
  | zero => intro h; exact absurd h (by omega)
  | succ m ih =>
      intro h
      by_cases hm : k + 1 ≤ m
      · rw [List.range_succ, List.countP_append, ih hm]
        have hfalse : (decide (m ≤ k) && pred m) = false := by
          have : ¬ m ≤ k := by omega
          simp [this]
        simp [List.countP_cons, hfalse]
      · have hmk : m = k := by omega
        subst hmk
        apply List.countP_congr
        intro j hj
        have hjk : j ≤ m := by
          have := List.mem_range.mp hj
          omega
        simp [hjk]

theorem mem_toPairs : ∀ (C : List Nat) (p : Nat × Nat),
    p ∈ toPairs C → p.1 ∈ C ∧ p.2 ∈ C
  | [], p, hp => by simp [toPairs] at hp
  | [a], p, hp => by simp [toPairs] at hp
  | a :: b :: rest, p, hp => by
      simp only [toPairs, List.mem_cons] at hp
      rcases hp with rfl | hp
      · simp
      · have := mem_toPairs rest p hp
        exact ⟨by simp [this.1], by simp [this.2]⟩

theorem toPairs_lt : ∀ (C : List Nat), C.Pairwise (· < ·) →
    ∀ p ∈ toPairs C, p.1 < p.2
  | [], _, p, hp => by simp [toPairs] at hp
  | [a], _, p, hp => by simp [toPairs] at hp
  | a :: b :: rest, hpw, p, hp => by
      simp only [toPairs, List.mem_cons] at hp
      rcases hp with rfl | hp
      · exact (List.pairwise_cons.mp hpw).1 b (by simp)
      · exact toPairs_lt rest
          (List.pairwise_cons.mp (List.pairwise_cons.mp hpw).2).2 p hp

theorem pairs_cover : ∀ (C : List Nat), C.Pairwise (· < ·) →
    C.length % 2 = 0 → ∀ k : Nat,
      ((∃ p ∈ toPairs C, p.1 ≤ k ∧ k < p.2)
        ↔ (C.countP (fun j => decide (j ≤ k))) % 2 = 1)
  | [], _, _, k => by simp [toPairs]
  | [a], _, hlen, k => by simp at hlen
  | a :: b :: rest, hpw, hlen, k => by
      have hab : a < b := (List.pairwise_cons.mp hpw).1 b (by simp)
      have harest : ∀ x ∈ rest, a < x := fun x hx =>
        (List.pairwise_cons.mp hpw).1 x (by simp [hx])
      have hpw' := (List.pairwise_cons.mp hpw).2
      have hbrest : ∀ x ∈ rest, b < x := fun x hx =>
        (List.pairwise_cons.mp hpw').1 x hx
      have hpwrest := (List.pairwise_cons.mp hpw').2
      have hlen' : rest.length % 2 = 0 := by
        simp only [List.length_cons] at hlen
        omega
      have ih := pairs_cover rest hpwrest hlen' k
      have hcnt : (a :: b :: rest).countP (fun j => decide (j ≤ k))
          = rest.countP (fun j => decide (j ≤ k))
            + (if a ≤ k then 1 else 0) + (if b ≤ k then 1 else 0) := by
        rw [List.countP_cons, List.countP_cons]
        by_cases hak : a ≤ k <;> by_cases hbk : b ≤ k <;> simp [hak, hbk]
      rw [hcnt]
      by_cases hak : a ≤ k
      · by_cases hbk : b ≤ k
        · -- both boundaries at or before k: the head pair cannot cover k,
          -- parity is decided by the remaining pairs
          simp only [toPairs, List.mem_cons]
          constructor
          · rintro ⟨p, hp | hp, hc⟩
            · rcases hp with rfl
              omega
            · have := ih.mp ⟨p, hp, hc⟩
              simp [hak, hbk]
              omega
          · intro hpar
            have : rest.countP (fun j => decide (j ≤ k)) % 2 = 1 := by
              simp [hak, hbk] at hpar
              omega
            obtain ⟨p, hp, hc⟩ := ih.mpr this
            exact ⟨p, Or.inr hp, hc⟩
        · -- a ≤ k < b: the head pair covers k and no later boundary is ≤ k
          have hzero : rest.countP (fun j => decide (j ≤ k)) = 0 :=
            List.countP_eq_zero.mpr (fun x hx => by
              have := hbrest x hx
              simp
              omega)
          simp only [toPairs, List.mem_cons]
          constructor
          · intro _
            simp [hak, hbk, hzero]
          · intro _
            exact ⟨(a, b), Or.inl rfl, hak, by omega⟩
      · -- k lies before the first boundary: nothing covers it
        have hbk : ¬ b ≤ k := by omega
        have hzero : rest.countP (fun j => decide (j ≤ k)) = 0 :=
          List.countP_eq_zero.mpr (fun x hx => by
            have := harest x hx
            simp
            omega)
        simp only [toPairs, List.mem_cons]
        constructor
        · rintro ⟨p, hp | hp, hc⟩
          · rcases hp with rfl
            omega
          · have hm := mem_toPairs rest p hp
            have := harest p.1 hm.1
            omega
        · intro hpar
          simp [hak, hbk, hzero] at hpar

theorem changes_even (mask : List Bool) (h : mask ≠ []) :
    (changesOf mask).length % 2 = 0 := by
  rw [changes_eq_filter mask h, ← List.countP_eq_length_filter]
  have hpar := mask_parity mask mask.length
  have hv : mask.getD mask.length false = false :=
    List.getD_eq_default _ _ (le_refl _)
  rw [hv] at hpar
  simp at hpar
  omega

theorem cover_iff (mask : List Bool) (k : Nat) (hk : k < mask.length) :
    ((∃ p ∈ intervalsOf mask, p.1 ≤ k ∧ k < p.2) ↔ mask.getD k false = true) := by
  have hne : mask ≠ [] := by
    intro he
    rw [he] at hk
    simp at hk
  have hC := changes_eq_filter mask hne
  have hpw : ((List.range (mask.length + 1)).filter (chg mask)).Pairwise (· < ·) :=
    (List.pairwise_lt_range _).filter _
  have heven : ((List.range (mask.length + 1)).filter (chg mask)).length % 2 = 0 := by
    rw [← hC]
    exact changes_even mask hne
  have hcover := pairs_cover _ hpw heven k
  have hcnt : ((List.range (mask.length + 1)).filter (chg mask)).countP
        (fun j => decide (j ≤ k))
      = (List.range (k + 1)).countP (chg mask) := by
    rw [List.countP_filter]
    exact countP_le_range (chg mask) k (mask.length + 1) (by omega)
  rw [intervalsOf, hC, hcover, hcnt]
  exact (mask_parity mask k).symm

theorem intervals_are_runs (mask : List Bool) (hne : mask ≠ []) :
    ∀ p ∈ intervalsOf mask,
      p.1 < p.2 ∧ p.2 ≤ mask.length
        ∧ (∀ k, k < p.2 → p.1 ≤ k → mask.getD k false = true)
        ∧ (p.1 = 0 ∨ mask.getD (p.1 - 1) false = false)
        ∧ mask.getD p.2 false = false := by
  intro p hp
  have hC := changes_eq_filter mask hne
  have hp' : p ∈ toPairs ((List.range (mask.length + 1)).filter (chg mask)) := by
    rw [intervalsOf, hC] at hp
    exact hp
  have hpw : ((List.range (mask.length + 1)).filter (chg mask)).Pairwise (· < ·) :=
    (List.pairwise_lt_range _).filter _
  have hlt : p.1 < p.2 := toPairs_lt _ hpw p hp'
  have hmem := mem_toPairs _ p hp'
  have hchg1 : chg mask p.1 = true := List.of_mem_filter hmem.1
  have hchg2 : chg mask p.2 = true := List.of_mem_filter hmem.2
  have hr2 : p.2 < mask.length + 1 :=
    List.mem_range.mp (List.mem_of_mem_filter hmem.2)
  have hin : ∀ k, k < p.2 → p.1 ≤ k → mask.getD k false = true := by
    intro k hk2 hk1
    have hkN : k < mask.length := by omega
    exact (cover_iff mask k hkN).mp ⟨p, hp, hk1, hk2⟩
  refine ⟨hlt, by omega, hin, ?_, ?_⟩
  · rcases Nat.eq_zero_or_eq_succ_pred p.1 with hp1 | hp1
    · exact Or.inl hp1
    · right
      obtain ⟨j, hj⟩ : ∃ j, p.1 = j + 1 := ⟨p.1 - 1, hp1⟩
      rw [hj] at hchg1
      have hb : (mask.getD j false != mask.getD (j + 1) false) = true := hchg1
      have hj1 : mask.getD (j + 1) false = true :=
        hin (j + 1) (by omega) (by omega)
      rw [hj1] at hb
      rw [hj, Nat.add_sub_cancel]
      rcases Bool.eq_false_or_eq_true (mask.getD j false) with hx | hx
      · rw [hx] at hb
        simp at hb
      · exact hx
  · obtain ⟨j, hj⟩ : ∃ j, p.2 = j + 1 := ⟨p.2 - 1, by omega⟩
    rw [hj] at hchg2
    have hb : (mask.getD j false != mask.getD (j + 1) false) = true := hchg2
    have hjt : mask.getD j false = true := hin j (by omega) (by omega)
    rw [hjt] at hb
    rw [hj]
    rcases Bool.eq_false_or_eq_true (mask.getD (j + 1) false) with hx | hx
    · rw [hx] at hb
      simp at hb
    · exact hx

/-- For a nonempty mask of matching length, `where` succeeds and
returns the rendered selection of `intervalsOf`. -/
theorem whereExpr_ok (name : String) (mask : List Bool) (hne : mask ≠ []) :
    whereExpr name mask.length mask
      = .ok (completeSelection name (intervalsOf mask)) := by
  unfold whereExpr
  rw [if_neg (by simp)]
  rw [if_neg (by simp [hne])]

theorem check_existence_ok (sess : Session) (name : String)
    (h : name ∈ get_object_list sess) : check_existence sess name = .ok () := by
  unfold check_existence
  rw [if_pos h]

theorem check_existence_err (sess : Session) (name : String)
    (h : name ∉ get_object_list sess) :
    check_existence sess name
      = .error (.NonexistentObjectError (nonexistentMsg name)) := by
  unfold check_existence
  rw [if_neg h]

theorem validate_absent (sess : Session) (self : PyMOLObject)
    (h : self.name ∉ get_object_list sess) :
    validate sess self
      = .error (.NonexistentObjectError (nonexistentMsg self.name)) := by
  unfold validate
  rw [check_existence_err sess self.name h]
  rfl

theorem validate_modified (sess : Session) (self : PyMOLObject)
    (hmem : self.name ∈ get_object_list sess)
    (hne : count_atoms sess self.name ≠ self.atom_count) :
    validate sess self
      = .error (.ModifiedObjectError
          (modifiedMsg self.atom_count (count_atoms sess self.name))) := by
  unfold validate
  rw [check_existence_ok sess self.name hmem]
  show (if count_atoms sess self.name ≠ self.atom_count then
        Except.error (PyError.ModifiedObjectError
          (modifiedMsg self.atom_count (count_atoms sess self.name)))
      else Except.ok ()) = _
  rw [if_pos hne]

theorem validate_ok_iff (sess : Session) (self : PyMOLObject)
    (hmem : self.name ∈ get_object_list sess) :
    (validate sess self = .ok ()
      ↔ count_atoms sess self.name = self.atom_count) := by
  unfold validate
  rw [check_existence_ok sess self.name hmem]
  show ((if count_atoms sess self.name ≠ self.atom_count then
        Except.error (PyError.ModifiedObjectError
          (modifiedMsg self.atom_count (count_atoms sess self.name)))
      else Except.ok ()) = Except.ok ()) ↔ _
  by_cases hc : count_atoms sess self.name = self.atom_count
  · rw [if_neg (by omega)]
    simp [hc]
  · rw [if_pos hc]
    simp [hc]

/-! ### Claim theorems -/

/-- C1: for a boolean mask whose length equals the bound object's atom
count and which contains at least one True entry, `where` returns
`"model <name> and (<clauses>)"` where the clauses are the rendered
1-based inclusive ranges of `intervalsOf mask`, the boundary list has
even length, there is at least one clause, the set of atom indices
covered by the ranges (atom `k`, 0-based, has 1-based index `k+1`)
equals exactly the set of True positions, and every interval is a
maximal run of consecutive True values. -/
theorem C1_where_run_length_encoding (name : String) (atomCount : Nat)
    (mask : List Bool) (hlen : mask.length = atomCount) (htrue : true ∈ mask) :
    whereExpr name atomCount mask
        = .ok ("model " ++ name ++ " and ("
            ++ String.intercalate " or " ((intervalsOf mask).map rangeClause)
            ++ ")")
      ∧ (changesOf mask).length % 2 = 0
      ∧ intervalsOf mask ≠ []
      ∧ (∀ k, k < mask.length →
          ((∃ p ∈ intervalsOf mask, p.1 + 1 ≤ k + 1 ∧ k + 1 ≤ p.2)
            ↔ mask.getD k false = true))
      ∧ (∀ p ∈ intervalsOf mask,
          p.1 < p.2 ∧ p.2 ≤ mask.length
            ∧ (∀ k, k < p.2 → p.1 ≤ k → mask.getD k false = true)
            ∧ (p.1 = 0 ∨ mask.getD (p.1 - 1) false = false)
            ∧ mask.getD p.2 false = false) := by
  have hne : mask ≠ [] := List.ne_nil_of_mem htrue
  subst hlen
  refine ⟨?_, changes_even mask hne, ?_, ?_, intervals_are_runs mask hne⟩
  · rw [whereExpr_ok name mask hne]
    rfl
  · obtain ⟨n, hn⟩ := List.mem_iff_get.mp htrue
    have hgd : mask.getD n.1 false = true := by
      rw [List.getD_eq_getElem mask false n.2]
      exact hn
    obtain ⟨p, hp, _⟩ := (cover_iff mask n.1 n.2).mpr hgd
    intro hnil
    rw [hnil] at hp
    simp at hp
  · intro k hk
    have hiff := cover_iff mask k hk
    constructor
    · rintro ⟨p, hp, h1, h2⟩
      exact hiff.mp ⟨p, hp, by omega, by omega⟩
    · intro hm
      obtain ⟨p, hp, h1, h2⟩ := hiff.mpr hm
      exact ⟨p, hp, by omega, by omega⟩

theorem C1_where_run_length_encoding_witness :
    ([true, false, true] : List Bool).length = 3
      ∧ true ∈ ([true, false, true] : List Bool)
      ∧ whereExpr "obj" 3 [true, false, true]
          = .ok "model obj and (index 1-1 or index 3-3)"
      ∧ (∀ k, k < 3 →
          ((∃ p ∈ intervalsOf [true, false, true],
              p.1 + 1 ≤ k + 1 ∧ k + 1 ≤ p.2)
            ↔ ([true, false, true] : List Bool).getD k false = true)) := by
  have h := C1_where_run_length_encoding "obj" 3 [true, false, true]
    rfl (by decide)
  refine ⟨rfl, by decide, ?_, ?_⟩
  · rw [h.1]
    rfl
  · intro k hk
    exact h.2.2.2.1 k hk

/-- C3: the claim states that an all-False mask yields a valid
selection expression matching zero atoms and in particular no empty
disjunction inside the scoping clause; the code in fact returns
`"model obj and ()"`, whose parenthesized disjunction is empty. -/
theorem C3_all_false_mask_empty_disjunction :
    whereExpr "obj" 3 [false, false, false] = .ok "model obj and ()" := by
  rfl

/-- C4: the claim states that a length mismatch raises an error whose
message reports expected and actual lengths; the code's error branch
evaluates an f-string referencing the undefined name `atom_count`, so
it raises a `NameError` carrying neither count instead of the
documented `IndexError`. -/
theorem C4_length_mismatch_raises_name_error :
    whereExpr "obj" 2 [true, true, true] = .error (.NameError "atom_count") := by
  rfl

/-- C10: `where` returns a selection expression for every nonempty
mask of matching length, but for a zero-atom object and a length-0
mask the length check passes and the access to the mask's first
element is out of bounds, so an `IndexError` is raised and no
selection expression is returned. -/
theorem C10_where_total_only_for_nonempty_mask (name : String)
    (mask : List Bool) (hne : mask ≠ []) :
    (whereExpr name mask.length mask).isOk = true
      ∧ whereExpr name 0 []
          = .error (.IndexError "index 0 is out of bounds for axis 0 with size 0") := by
  constructor
  · rw [whereExpr_ok name mask hne]
    rfl
  · rfl

theorem C10_where_total_only_for_nonempty_mask_witness :
    ([true] : List Bool) ≠ []
      ∧ ((whereExpr "obj" 1 [true]).isOk = true
          ∧ whereExpr "obj" 0 []
              = .error (.IndexError "index 0 is out of bounds for axis 0 with size 0")) :=
  ⟨by decide, C10_where_total_only_for_nonempty_mask "obj" [true] (by decide)⟩

theorem gatherLoop_ok {C : Type} : ∀ (sets acc : List (List C)) (e : Nat),
    (∀ cs ∈ sets, cs.length = e) →
    gatherLoop sets (Option.some e) acc = .ok (acc.reverse ++ sets)
  | [], acc, e, _ => by simp [gatherLoop]
  | s :: rest, acc, e, h => by
      have hs : s.length = e := h s (by simp)
      have hrec := gatherLoop_ok rest (s :: acc) e
        (fun cs hcs => h cs (by simp [hcs]))
      simp only [gatherLoop]
      rw [if_neg (by omega), hrec]
      simp

theorem gatherLoop_err {C : Type} : ∀ (sets acc : List (List C)) (e : Nat),
    (∃ cs ∈ sets, cs.length ≠ e) →
    gatherLoop sets (Option.some e) acc
      = .error (.ValueError "The models have different numbers of atoms")
  | [], _, _, h => by simp at h
  | s :: rest, acc, e, h => by
      by_cases hs : s.length = e
      · have hrest : ∃ cs ∈ rest, cs.length ≠ e := by
          obtain ⟨cs, hcs, hne⟩ := h
          rcases List.mem_cons.mp hcs with rfl | hmem
          · exact absurd hs hne
          · exact ⟨cs, hmem, hne⟩
        simp only [gatherLoop]
        rw [if_neg (by omega)]
        exact gatherLoop_err rest (s :: acc) e hrest
      · simp only [gatherLoop]
        rw [if_pos hs]

/-- C2: when the bound object still exists but its live atom count
differs from the recorded one, every decorated operation returns the
`ModifiedObjectError` produced by the `validate` wrapper, and when the
named object is absent from the session every decorated operation
returns `NonexistentObjectError`; in both cases the operation's
command list is never produced, i.e. the error is raised before any
engine command is issued.  (The six operations embedded here all go
through the same `validate` wrapper as the remaining decorated
commands of the source.) -/
theorem C2_validation_precedes_engine_commands (sess : Session)
    (self : PyMOLObject) (mask : List Bool)
    (sel1 sel2 sel3 sel4 sel5 : Selection)
    (expression ctype mode : String) (st1 st2 : Option Int)
    (origin : Bool) (distance : Int) (counter : Nat) (c : ColorArg) :
    (self.name ∈ get_object_list sess →
      count_atoms sess self.name ≠ self.atom_count →
      (PyMOLObject.where_ sess self mask
          = .error (.ModifiedObjectError
              (modifiedMsg self.atom_count (count_atoms sess self.name)))
        ∧ PyMOLObject.alter sess self sel1 expression
          = .error (.ModifiedObjectError
              (modifiedMsg self.atom_count (count_atoms sess self.name)))
        ∧ PyMOLObject.cartoon sess self ctype sel2
          = .error (.ModifiedObjectError
              (modifiedMsg self.atom_count (count_atoms sess self.name)))
        ∧ PyMOLObject.center sess self sel3 st1 origin
          = .error (.ModifiedObjectError
              (modifiedMsg self.atom_count (count_atoms sess self.name)))
        ∧ PyMOLObject.clip sess self mode distance sel4 st2
          = .error (.ModifiedObjectError
              (modifiedMsg self.atom_count (count_atoms sess self.name)))
        ∧ PyMOLObject.color sess self counter c sel5
          = .error (.ModifiedObjectError
              (modifiedMsg self.atom_count (count_atoms sess self.name)))))
      ∧ (self.name ∉ get_object_list sess →
        (PyMOLObject.where_ sess self mask
            = .error (.NonexistentObjectError (nonexistentMsg self.name))
          ∧ PyMOLObject.alter sess self sel1 expression
            = .error (.NonexistentObjectError (nonexistentMsg self.name))
          ∧ PyMOLObject.cartoon sess self ctype sel2
            = .error (.NonexistentObjectError (nonexistentMsg self.name))
          ∧ PyMOLObject.center sess self sel3 st1 origin
            = .error (.NonexistentObjectError (nonexistentMsg self.name))
          ∧ PyMOLObject.clip sess self mode distance sel4 st2
            = .error (.NonexistentObjectError (nonexistentMsg self.name))
          ∧ PyMOLObject.color sess self counter c sel5
            = .error (.NonexistentObjectError (nonexistentMsg self.name)))) := by
  constructor
  · intro hmem hne
    have hv := validate_modified sess self hmem hne
    refine ⟨?_, ?_, ?_, ?_, ?_, ?_⟩
    · unfold PyMOLObject.where_
      rw [hv]
      rfl
    · unfold PyMOLObject.alter
      rw [hv]
      rfl
    · unfold PyMOLObject.cartoon
      rw [hv]
      rfl
    · unfold PyMOLObject.center
      rw [hv]
      rfl
    · unfold PyMOLObject.clip
      rw [hv]
      rfl
    · unfold PyMOLObject.color
      rw [hv]
      rfl
  · intro hmem
    have hv := validate_absent sess self hmem
    refine ⟨?_, ?_, ?_, ?_, ?_, ?_⟩
    · unfold PyMOLObject.where_
      rw [hv]
      rfl
    · unfold PyMOLObject.alter
      rw [hv]
      rfl
    · unfold PyMOLObject.cartoon
      rw [hv]
      rfl
    · unfold PyMOLObject.center
      rw [hv]
      rfl
    · unfold PyMOLObject.clip
      rw [hv]
      rfl
    · unfold PyMOLObject.color
      rw [hv]
      rfl

theorem C2_validation_precedes_engine_commands_witness :
    ("obj" ∈ get_object_list ⟨[("obj", 2)], []⟩
        ∧ count_atoms ⟨[("obj", 2)], []⟩ "obj" ≠ 3
        ∧ PyMOLObject.where_ ⟨[("obj", 2)], []⟩ ⟨"obj", 3, true⟩ [true]
            = .error (.ModifiedObjectError (modifiedMsg 3 2)))
      ∧ ("gone" ∉ get_object_list ⟨[("obj", 2)], []⟩
        ∧ PyMOLObject.alter ⟨[("obj", 2)], []⟩ ⟨"gone", 3, true⟩
              (.expr "resi 1") "b=1"
            = .error (.NonexistentObjectError (nonexistentMsg "gone"))) := by
  constructor
  · refine ⟨by decide, by decide, ?_⟩
    exact (C2_validation_precedes_engine_commands ⟨[("obj", 2)], []⟩
      ⟨"obj", 3, true⟩ [true] (.expr "x") (.expr "x") (.expr "x") (.expr "x")
      (.expr "x") "e" "t" "m" Option.none Option.none true 0 0
      (.str "red")).1 (by decide) (by decide) |>.1
  · refine ⟨by decide, ?_⟩
    exact (C2_validation_precedes_engine_commands ⟨[("obj", 2)], []⟩
      ⟨"gone", 3, true⟩ [true] (.expr "resi 1") (.expr "x") (.expr "x")
      (.expr "x") (.expr "x") "b=1" "t" "m" Option.none Option.none true 0 0
      (.str "red")).2 (by decide) |>.2.1

/-- C5: the claim states that importing with altloc policy "first"
keeps only the first-encountered altloc id per residue and drops the
id column; the code's "first" branch calls the unimported name
`filter_first_altloc` and therefore raises `NameError` before any
filtering, here evaluated on a one-state two-atom object. -/
theorem C5_altloc_first_raises_name_error :
    to_structure (ObjectData.mk [0] [[0, 1]] : ObjectData Nat Nat)
        Option.none "first" false
      = .error (.NameError "filter_first_altloc") := by
  rfl

/-- C6: on a multi-state import (state omitted), each state's
coordinate set is compared against the first state's atom count: any
mismatch yields the structural-inconsistency `ValueError` (before any
structure is returned, for every altloc policy), and on success the
coordinate sets are stacked in state order into the returned
stack. -/
theorem C6_multi_state_atom_count_consistency {M C : Type} [Inhabited M]
    (o : ObjectData M C) (altloc : String) (ib : Bool) :
    ((∃ cs ∈ o.coordsets, cs.length ≠ (o.coordsets.headD []).length) →
        to_structure o Option.none altloc ib
          = .error (.ValueError "The models have different numbers of atoms"))
      ∧ (o.coordsets ≠ [] →
          (∀ cs ∈ o.coordsets, cs.length = (o.coordsets.headD []).length) →
          to_structure o Option.none "all" ib
            = .ok (.raw (.stack (get_model o 1) ib o.coordsets))) := by
  constructor
  · intro hex
    obtain ⟨c0, rest, hco⟩ : ∃ c0 rest, o.coordsets = c0 :: rest := by
      obtain ⟨cs, hcs, _⟩ := hex
      cases hc : o.coordsets with
      | nil =>
          rw [hc] at hcs
          simp at hcs
      | cons c0 rest => exact ⟨c0, rest, rfl⟩
    have hg : gatherLoop o.coordsets Option.none []
        = .error (.ValueError "The models have different numbers of atoms") := by
      rw [hco]
      simp only [gatherLoop]
      apply gatherLoop_err
      obtain ⟨cs, hcs, hne⟩ := hex
      rw [hco] at hcs hne
      simp only [List.headD_cons] at hne
      rcases List.mem_cons.mp hcs with rfl | hmem
      · exact absurd rfl hne
      · exact ⟨cs, hmem, hne⟩
    unfold to_structure
    rw [hg]
    rfl
  · intro hne hall
    obtain ⟨c0, rest, hco⟩ : ∃ c0 rest, o.coordsets = c0 :: rest := by
      cases hc : o.coordsets with
      | nil => exact absurd hc hne
      | cons c0 rest => exact ⟨c0, rest, rfl⟩
    have hall' : ∀ cs ∈ rest, cs.length = c0.length := by
      intro cs hcs
      have := hall cs (by rw [hco]; simp [hcs])
      rw [hco] at this
      simpa using this
    have hg : gatherLoop o.coordsets Option.none [] = .ok o.coordsets := by
      rw [hco]
      simp only [gatherLoop]
      rw [gatherLoop_ok rest [c0] c0.length hall']
      simp
    unfold to_structure
    rw [hg, hco]
    rfl

theorem C6_multi_state_atom_count_consistency_witness :
    ((∃ cs ∈ (ObjectData.mk [5] [[1], [2, 3]] : ObjectData Nat Nat).coordsets,
        cs.length
          ≠ ((ObjectData.mk [5] [[1], [2, 3]] : ObjectData Nat Nat).coordsets.headD []).length)
      ∧ to_structure (ObjectData.mk [5] [[1], [2, 3]] : ObjectData Nat Nat)
          Option.none "all" false
        = .error (.ValueError "The models have different numbers of atoms"))
      ∧ ((ObjectData.mk [5] [[1], [2]] : ObjectData Nat Nat).coordsets ≠ []
        ∧ to_structure (ObjectData.mk [5] [[1], [2]] : ObjectData Nat Nat)
            Option.none "all" false
          = .ok (.raw (.stack 5 false [[1], [2]]))) := by
  constructor
  · refine ⟨by decide, ?_⟩
    exact (C6_multi_state_atom_count_consistency
      (ObjectData.mk [5] [[1], [2, 3]]) "all" false).1 (by decide)
  · refine ⟨by decide, ?_⟩
    exact (C6_multi_state_atom_count_consistency
      (ObjectData.mk [5] [[1], [2]]) "all" false).2 (by decide) (by decide)

/-- C7: `_into_selection` maps `None` to the all-atoms scoping
expression `"model <name>"`, a raw string `s` to the conjunction
`"model <name> and (<s>)"` of the object-scoping clause with the
caller's expression, and anything else is treated as a boolean mask
and passed through the decorated `where` encoder. -/
theorem C7_into_selection_resolution (sess : Session) (self : PyMOLObject)
    (s : String) (m : List Bool) :
    self.into_selection sess Selection.none = .ok ("model " ++ self.name)
      ∧ self.into_selection sess (Selection.expr s)
          = .ok ("model " ++ self.name ++ " and (" ++ s ++ ")")
      ∧ self.into_selection sess (Selection.mask m)
          = PyMOLObject.where_ sess self m :=
  ⟨rfl, rfl, rfl⟩

/-- C8: constructing a handle for a name absent from the session
raises `NonexistentObjectError`; on success the constructor records
the live atom count, and validation of any later session state
succeeds exactly when the live count still equals that recorded
baseline. -/
theorem C8_init_existence_and_baseline (sess : Session) (name : String)
    (d : Bool) :
    (name ∉ get_object_list sess →
        PyMOLObject.init sess name d
          = .error (.NonexistentObjectError (nonexistentMsg name)))
      ∧ (name ∈ get_object_list sess →
          PyMOLObject.init sess name d
              = .ok ⟨name, count_atoms sess name, d⟩
            ∧ ∀ sess2 : Session, name ∈ get_object_list sess2 →
                (validate sess2 ⟨name, count_atoms sess name, d⟩ = .ok ()
                  ↔ count_atoms sess2 name = count_atoms sess name)) := by
  constructor
  · intro h
    unfold PyMOLObject.init
    rw [check_existence_err sess name h]
  · intro h
    constructor
    · unfold PyMOLObject.init
      rw [check_existence_ok sess name h]
    · intro sess2 h2
      exact validate_ok_iff sess2 ⟨name, count_atoms sess name, d⟩ h2

theorem C8_init_existence_and_baseline_witness :
    ("nope" ∉ get_object_list ⟨[("obj", 2)], []⟩
        ∧ PyMOLObject.init ⟨[("obj", 2)], []⟩ "nope" true
            = .error (.NonexistentObjectError (nonexistentMsg "nope")))
      ∧ ("obj" ∈ get_object_list ⟨[("obj", 2)], []⟩
        ∧ PyMOLObject.init ⟨[("obj", 2)], []⟩ "obj" true
            = .ok ⟨"obj", 2, true⟩
        ∧ (validate ⟨[("obj", 5)], []⟩ ⟨"obj", 2, true⟩ = .ok () ↔ (5 : Nat) = 2)) := by
  have h1 := (C8_init_existence_and_baseline ⟨[("obj", 2)], []⟩ "nope" true).1
    (by decide)
  have h2 := (C8_init_existence_and_baseline ⟨[("obj", 2)], []⟩ "obj" true).2
    (by decide)
  exact ⟨⟨by decide, h1⟩, by decide, h2.1, h2.2 ⟨[("obj", 5)], []⟩ (by decide)⟩

/-- C9: with the state parameter omitted, `to_structure` on a
one-state object still returns the multi-state `stack` result (a
depth-1 stack over the state-1 topology template), while the
single-state `array` result is returned exactly when an explicit
state argument is given. -/
theorem C9_state_omitted_yields_stack {M C : Type} [Inhabited M]
    (o : ObjectData M C) (ib : Bool) (s : Nat)
    (h1 : o.coordsets.length = 1) :
    to_structure o Option.none "all" ib
        = .ok (.raw (.stack (get_model o 1) ib o.coordsets))
      ∧ to_structure o (Option.some s) "all" ib
        = .ok (.raw (.array (get_model o s) ib)) := by
  constructor
  · obtain ⟨c0, hco⟩ := List.length_eq_one.mp h1
    have hg : gatherLoop o.coordsets Option.none [] = .ok o.coordsets := by
      rw [hco]
      simp only [gatherLoop]
      rfl
    unfold to_structure
    rw [hg, hco]
    rfl
  · unfold to_structure
    rfl

theorem C9_state_omitted_yields_stack_witness :
    (ObjectData.mk [7] [[1, 2]] : ObjectData Nat Nat).coordsets.length = 1
      ∧ (to_structure (ObjectData.mk [7] [[1, 2]] : ObjectData Nat Nat)
            Option.none "all" false
          = .ok (.raw (.stack 7 false [[1, 2]]))
        ∧ to_structure (ObjectData.mk [7] [[1, 2]] : ObjectData Nat Nat)
            (Option.some 1) "all" false
          = .ok (.raw (.array 7 false))) :=
  ⟨rfl, C9_state_omitted_yields_stack (ObjectData.mk [7] [[1, 2]]) false 1 rfl⟩

end Ammolite
